import Mathlib

/-!
# Shallow embedding of the `garnerd` content-addressed file store

This file embeds the parts of the `garnerd` repository that the verified
claims are about:

* `src/garnerd/filestore/directory.py` — `size_to_basex`, and the
  `DirectoryFileStore` methods `file_path`, `has_file`, `add_file`,
  `init_store`, `create_dirs`, `enum_sub_dirs`, `count_stored`, `can_store`;
* `src/garnerd/buffers/shmem.py` — `SHMFanoutBuffer.save_bytes`,
  `load_bytes`, `snapshot`, `save_size`, `load_size`, and
  `SHMBufferSync.wait`.

Python strings are embedded as Lean `String`/`List Char` (ASCII fragment),
byte buffers as `List Nat`, machine integers as `Nat`/`Int` with explicit
bounds where they matter, raised exceptions as `Except PyErr`, and the file
system as a finite association list from paths to nodes.
-/

namespace Garnerd

/-- The Python exceptions that the embedded code can raise: the generic
`ValueError`/`TypeError` built-ins, the `garnerd.exceptions` classes, and the
OS errors raised by file operations. -/
inductive PyErr where
  | valueError
  | typeError
  | invalidPath
  | invalidFileSize
  | invalidFileError
  | invalidDirectoryError
  | fileNotFoundError
  | isADirectoryError
  deriving DecidableEq, Repr

/-! ## Size encoding: `size_to_basex` (directory.py lines 10–14) -/

/-- The default alphabet of `size_to_basex`: `"0123456789abcdefghijklmnopqrstuv"`. -/
def baseText : List Char := "0123456789abcdefghijklmnopqrstuv".data

/-- Structural-recursion engine for `size_to_basex`: the first argument is
fuel bounding the recursion depth, so that the definition reduces inside the
kernel.  `sizeToBasexGo_congr` shows the fuel is irrelevant once it is at
least `n`, and `size_to_basex_eq` recovers the source's recurrence. -/
def sizeToBasexGo : Nat → Nat → List Char
  | 0, n => [baseText.getD n '0']
  | fuel + 1, n =>
    if n < 32 then [baseText.getD n '0']
    else sizeToBasexGo fuel (n / 32) ++ [baseText.getD (n % 32) '0']

/-- `size_to_basex(size)` (directory.py:10–14) with the default 32-character
alphabet: if `size < base` return the single digit, else recurse on
`size // base` and append the digit for `size % base`. -/
def size_to_basex (n : Nat) : List Char := sizeToBasexGo n n

theorem sizeToBasexGo_congr :
    ∀ f₁ f₂ n : Nat, n ≤ f₁ → n ≤ f₂ → sizeToBasexGo f₁ n = sizeToBasexGo f₂ n := by
  intro f₁
  induction f₁ with
  | zero =>
    intro f₂ n h1 _
    interval_cases n
    cases f₂ <;> simp [sizeToBasexGo]
  | succ a ih =>
    intro f₂ n h1 h2
    cases f₂ with
    | zero =>
      interval_cases n
      simp [sizeToBasexGo]
    | succ b =>
      by_cases hn : n < 32
      · simp [sizeToBasexGo, hn]
      · have hdiv : n / 32 < n := Nat.div_lt_self (by omega) (by omega)
        simp only [sizeToBasexGo, hn, if_false]
        rw [ih b (n / 32) (by omega) (by omega)]

/-- The recurrence of `size_to_basex` exactly as written in the source. -/
theorem size_to_basex_eq (n : Nat) :
    size_to_basex n =
      if n < 32 then [baseText.getD n '0']
      else size_to_basex (n / 32) ++ [baseText.getD (n % 32) '0'] := by
  unfold size_to_basex
  cases n with
  | zero => simp [sizeToBasexGo]
  | succ m =>
    by_cases hn : m + 1 < 32
    · simp [sizeToBasexGo, hn]
    · have hdiv : (m + 1) / 32 < m + 1 := Nat.div_lt_self (by omega) (by omega)
      simp only [sizeToBasexGo, hn, if_false]
      rw [sizeToBasexGo_congr m ((m + 1) / 32) ((m + 1) / 32) (by omega) (by omega)]

/-- Value of one alphabet character, used only to state correctness of the
encoding (`decode32`). -/
def base32Val (c : Char) : Nat := baseText.indexOf c

/-- Base-32 decoding of a digit string over `baseText`, most significant
digit first. -/
def decode32 (l : List Char) : Nat := l.foldl (fun acc c => acc * 32 + base32Val c) 0

/-! ## Python `int(s, 16)` acceptance

`file_path` validates its key with `int(path_key, 16)` and catches
`ValueError` (directory.py:101–104).  `int(−, 16)` accepts an optional run
of surrounding whitespace, an optional sign, an optional `0x`/`0X` prefix
(optionally followed by a single underscore), and then hexadecimal digits
separated by at-most-single underscores.  We model the ASCII fragment of
that grammar. -/

/-- Is `c` an ASCII hexadecimal digit (either case)? -/
def hexDigitB (c : Char) : Bool :=
  ('0' ≤ c && c ≤ '9') || ('a' ≤ c && c ≤ 'f') || ('A' ≤ c && c ≤ 'F')

/-- ASCII whitespace stripped by Python's `int`. -/
def pySpaceB (c : Char) : Bool :=
  c = ' ' || c = '\t' || c = '\n' || c = '\r' || c = '\x0b' || c = '\x0c'

/-- Continuation of a digit run: underscores must be followed by a digit. -/
def hexRunTail : List Char → Bool
  | [] => true
  | [c] => if c = '_' then false else hexDigitB c
  | c :: c2 :: rest2 =>
    if c = '_' then hexDigitB c2 && hexRunTail rest2
    else hexDigitB c && hexRunTail (c2 :: rest2)

/-- A nonempty digit run `h(_?h)*`. -/
def hexRun : List Char → Bool
  | [] => false
  | c :: rest => hexDigitB c && hexRunTail rest

/-- After a `0x`/`0X` prefix a single leading underscore is allowed. -/
def hexAfterPre : List Char → Bool
  | [] => false
  | c :: rest => if c = '_' then hexRun rest else hexRun (c :: rest)

/-- After the optional sign: an optional `0x`/`0X` base marker, then the
digit run. -/
def afterSign : List Char → Bool
  | c0 :: c1 :: rest =>
    if c0 = '0' && (c1 = 'x' || c1 = 'X') then hexAfterPre rest
    else hexRun (c0 :: c1 :: rest)
  | l => hexRun l

/-- The optional-sign step of `int(s, 16)`, after whitespace is stripped. -/
def pyIntHexCore : List Char → Bool
  | [] => afterSign []
  | c :: rest => if c = '+' || c = '-' then afterSign rest else afterSign (c :: rest)

/-- Does Python's `int(s, 16)` accept the (ASCII) string `s`? -/
def pyIntHex (l : List Char) : Bool :=
  pyIntHexCore (((l.dropWhile pySpaceB).reverse.dropWhile pySpaceB).reverse)

instance instDecEqExcept {ε α : Type} [DecidableEq ε] [DecidableEq α] :
    DecidableEq (Except ε α)
  | Except.error a, Except.error b =>
    if h : a = b then isTrue (h ▸ rfl) else isFalse (fun hc => by cases hc; exact h rfl)
  | Except.error _, Except.ok _ => isFalse (fun hc => by cases hc)
  | Except.ok _, Except.error _ => isFalse (fun hc => by cases hc)
  | Except.ok a, Except.ok b =>
    if h : a = b then isTrue (h ▸ rfl) else isFalse (fun hc => by cases hc; exact h rfl)

/-- A plain hex string in the spec's sense: nonempty, hexadecimal digits only. -/
def hexString (K : String) : Prop :=
  K.data ≠ [] ∧ K.data.all hexDigitB = true

instance (K : String) : Decidable (hexString K) := by
  unfold hexString; infer_instance

/-! ## `DirectoryFileStore.file_path` (directory.py lines 84–116) -/

/-- `DirectoryFileStore.file_path(path_key, file_size)` (directory.py:84–116),
returning the path components below the store root.

* `file_size` arrives as a Lean `Int`, so Python's
  `isinstance(file_size, int)` test holds and only `file_size < 0` raises
  `ValueError`;
* the key is validated with `int(path_key, 16)`, turning its `ValueError`
  into the method's own `ValueError`;
* the key is lower-cased, rejected if `len(path_key) <= dir_depth`
  (`InvalidPath`);
* the size string comes from `size_to_basex` and is rejected if empty
  (`InvalidFileSize`);
* the result is one single-character directory per `path_key[a]`,
  `a < dir_depth`, and the leaf `path_key[dir_depth:] + "." + size_string`. -/
def file_path (D : Nat) (K : String) (S : Int) : Except PyErr (List String) :=
  if S < 0 then .error .valueError
  else if ¬ pyIntHex K.data then .error .valueError
  else
    let k := K.data.map Char.toLower
    if k.length ≤ D then .error .invalidPath
    else
      let ss := size_to_basex S.toNat
      if ss.length < 1 then .error .invalidFileSize
      else .ok (((k.take D).map fun c => String.mk [c]) ++ [String.mk (k.drop D ++ ('.' :: ss))])

example : size_to_basex 123 = ['3', 'r'] := by decide
example : size_to_basex 0 = ['0'] := by decide
example : file_path 6 "56bb3d0a2a7f294967f02dbc2de2a403ae3ba98b124d840273a6e46e081cf67c" 123 =
    .ok ["5", "6", "b", "b", "3", "d",
      "0a2a7f294967f02dbc2de2a403ae3ba98b124d840273a6e46e081cf67c.3r"] := by decide

/-- `size_to_basex` always produces at least one character. -/
theorem size_to_basex_ne_nil (n : Nat) : size_to_basex n ≠ [] := by
  rw [size_to_basex_eq]
  by_cases h : n < 32 <;> simp [h]

theorem decode32_append_digit (l : List Char) (c : Char) :
    decode32 (l ++ [c]) = decode32 l * 32 + base32Val c := by
  simp [decode32, List.foldl_append]

theorem base32Val_getD : ∀ k : Nat, k < 32 → base32Val (baseText.getD k '0') = k := by
  decide

/-- The encoding really is base 32 by repeated division: decoding the digit
string recovers the encoded number. -/
theorem decode32_size_to_basex : ∀ n : Nat, decode32 (size_to_basex n) = n := by
  intro n
  induction n using Nat.strong_induction_on with
  | _ n ih =>
    rw [size_to_basex_eq]
    by_cases h : n < 32
    · rw [if_pos h]
      simp only [decode32, List.foldl_cons, List.foldl_nil]
      rw [base32Val_getD n h]
      omega
    · have hdiv : n / 32 < n := Nat.div_lt_self (by omega) (by omega)
      rw [if_neg h, decode32_append_digit, ih (n / 32) hdiv,
        base32Val_getD (n % 32) (by omega)]
      omega
example : pyIntHex "0x_1f".data = true := by decide
example : pyIntHex "".data = false := by decide
example : pyIntHex " -AB_9 ".data = true := by decide
example : pyIntHex "1__2".data = false := by decide
example : pyIntHex "0x".data = false := by decide

/-! ## Plain hex strings are accepted by `int(-, 16)` -/

theorem hexDigit_not_space (c : Char) (h : hexDigitB c = true) : pySpaceB c = false := by
  by_contra hs
  rw [Bool.not_eq_false, pySpaceB] at hs
  repeat rw [Bool.or_eq_true] at hs
  simp only [decide_eq_true_eq] at hs
  rcases hs with ((((h1 | h1) | h1) | h1) | h1) | h1 <;> (subst h1; revert h; decide)

theorem hexDigit_ne (c : Char) (h : hexDigitB c = true) :
    c ≠ '_' ∧ c ≠ '+' ∧ c ≠ '-' ∧ c ≠ 'x' ∧ c ≠ 'X' := by
  refine ⟨?_, ?_, ?_, ?_, ?_⟩ <;> (rintro rfl; revert h; decide)

theorem dropWhile_space_of_hex (l : List Char) (h : l.all hexDigitB = true) :
    l.dropWhile pySpaceB = l := by
  cases l with
  | nil => rfl
  | cons c rest =>
    simp only [List.all_cons, Bool.and_eq_true] at h
    simp [List.dropWhile, hexDigit_not_space c h.1]

theorem hexRunTail_of_hex : ∀ l : List Char, l.all hexDigitB = true → hexRunTail l = true
  | [], _ => rfl
  | [c], h => by
    simp only [List.all_cons, List.all_nil, Bool.and_true] at h
    show (if c = '_' then false else hexDigitB c) = true
    rw [if_neg (hexDigit_ne c h).1, h]
  | c :: c2 :: rest, h => by
    simp only [List.all_cons, Bool.and_eq_true] at h
    show (if c = '_' then hexDigitB c2 && hexRunTail rest
          else hexDigitB c && hexRunTail (c2 :: rest)) = true
    rw [if_neg (hexDigit_ne c h.1).1, h.1,
      hexRunTail_of_hex (c2 :: rest) (by simp [List.all_cons, h.2.1, h.2.2])]
    rfl

theorem hexRun_of_hex (l : List Char) (hne : l ≠ []) (h : l.all hexDigitB = true) :
    hexRun l = true := by
  cases l with
  | nil => exact absurd rfl hne
  | cons c rest =>
    simp only [List.all_cons, Bool.and_eq_true] at h
    show (hexDigitB c && hexRunTail rest) = true
    rw [h.1, hexRunTail_of_hex rest h.2]
    rfl

theorem afterSign_of_hex (l : List Char) (h : l.all hexDigitB = true) :
    afterSign l = hexRun l := by
  match l with
  | [] => rfl
  | [c] => rfl
  | c0 :: c1 :: rest =>
    simp only [List.all_cons, Bool.and_eq_true] at h
    have h1 := hexDigit_ne c1 h.2.1
    show (if (c0 = '0' && (c1 = 'x' || c1 = 'X')) = true then hexAfterPre rest
          else hexRun (c0 :: c1 :: rest)) = hexRun (c0 :: c1 :: rest)
    rw [if_neg (by simp [h1.2.2.2.1, h1.2.2.2.2])]

theorem pyIntHex_of_hex (l : List Char) (hne : l ≠ []) (h : l.all hexDigitB = true) :
    pyIntHex l = true := by
  have hrev : l.reverse.all hexDigitB = true := by
    rw [List.all_eq_true] at h ⊢
    intro c hc
    exact h c (List.mem_reverse.mp hc)
  have hd : l.dropWhile pySpaceB = l := dropWhile_space_of_hex l h
  have hd2 : l.reverse.dropWhile pySpaceB = l.reverse := dropWhile_space_of_hex _ hrev
  rw [pyIntHex, hd, hd2, List.reverse_reverse]
  cases l with
  | nil => exact absurd rfl hne
  | cons c rest =>
    simp only [List.all_cons, Bool.and_eq_true] at h
    have h1 := hexDigit_ne c h.1
    show (if (c = '+' || c = '-') = true then afterSign rest else afterSign (c :: rest)) = true
    rw [if_neg (by simp [h1.2.1, h1.2.2.1])]
    rw [afterSign_of_hex _ (by simp [List.all_cons, h.1, h.2])]
    exact hexRun_of_hex _ (by simp) (by simp [List.all_cons, h.1, h.2])

/-! ## Characterizing `file_path` -/

/-- Unfolding of `file_path` with its local `let`s substituted. -/
theorem file_path_def (D : Nat) (K : String) (S : Int) :
    file_path D K S =
      (if S < 0 then .error .valueError
       else if ¬ pyIntHex K.data then .error .valueError
       else if (K.data.map Char.toLower).length ≤ D then .error .invalidPath
       else if (size_to_basex S.toNat).length < 1 then .error .invalidFileSize
       else .ok ((((K.data.map Char.toLower).take D).map fun c => String.mk [c]) ++
         [String.mk ((K.data.map Char.toLower).drop D ++
           ('.' :: size_to_basex S.toNat))])) := rfl

/-- The size string is never empty, so its length is never `< 1`. -/
theorem size_string_long (S : Int) : ¬ ((size_to_basex S.toNat).length < 1) := by
  have h := size_to_basex_ne_nil S.toNat
  have : (size_to_basex S.toNat).length ≠ 0 := by
    simpa [List.length_eq_zero] using h
  omega

/-- The success case of `file_path`, in closed form. -/
theorem file_path_ok (D : Nat) (K : String) (S : Int)
    (h0 : 0 ≤ S) (h1 : pyIntHex K.data = true) (h2 : D < K.data.length) :
    file_path D K S =
      .ok ((((K.data.map Char.toLower).take D).map fun c => String.mk [c]) ++
        [String.mk ((K.data.map Char.toLower).drop D ++ ('.' :: size_to_basex S.toNat))]) := by
  have hlen : ¬ ((K.data.map Char.toLower).length ≤ D) := by
    rw [List.length_map]; omega
  rw [file_path_def, if_neg (by omega), if_neg (not_not_intro h1), if_neg hlen,
    if_neg (size_string_long S)]

/-- `file_path` raises `ValueError` exactly when the size is negative or the
key is rejected by `int(path_key, 16)`. -/
theorem file_path_valueError_iff (D : Nat) (K : String) (S : Int) :
    file_path D K S = .error .valueError ↔ (S < 0 ∨ pyIntHex K.data = false) := by
  rw [file_path_def]
  by_cases hS : S < 0
  · rw [if_pos hS]
    simp [hS]
  · rw [if_neg hS]
    by_cases hhex : pyIntHex K.data = true
    · rw [if_neg (not_not_intro hhex)]
      have hhex' : ¬ pyIntHex K.data = false := by simp [hhex]
      by_cases hlen : (K.data.map Char.toLower).length ≤ D
      · rw [if_pos hlen]
        simp [hS, hhex']
      · rw [if_neg hlen, if_neg (size_string_long S)]
        simp [hS, hhex']
    · rw [if_pos hhex]
      have hf : pyIntHex K.data = false := by
        cases hpe : pyIntHex K.data
        · rfl
        · exact absurd hpe hhex
      simp [hf]

/-- `file_path` raises `InvalidPath` exactly when the validated key is at
most `dir_depth` characters long. -/
theorem file_path_invalidPath_iff (D : Nat) (K : String) (S : Int) :
    file_path D K S = .error .invalidPath ↔
      (0 ≤ S ∧ pyIntHex K.data = true ∧ K.length ≤ D) := by
  have hKlen : (K.data.map Char.toLower).length = K.length := by
    rw [List.length_map]; rfl
  rw [file_path_def]
  by_cases hS : S < 0
  · rw [if_pos hS]
    constructor
    · intro h
      exact absurd h (by simp)
    · intro h
      omega
  · rw [if_neg hS]
    by_cases hhex : pyIntHex K.data = true
    · rw [if_neg (not_not_intro hhex)]
      by_cases hlen : (K.data.map Char.toLower).length ≤ D
      · rw [if_pos hlen]
        simp only [hKlen] at hlen
        simp [hhex, hlen]
        omega
      · rw [if_neg hlen, if_neg (size_string_long S)]
        simp only [hKlen] at hlen
        constructor
        · intro h
          exact absurd h (by simp)
        · intro h
          exact absurd h.2.2 hlen
    · rw [if_pos hhex]
      constructor
      · intro h
        exact absurd h (by simp)
      · intro h
        exact absurd h.2.1 hhex

/-! ## Claim theorems: path derivation and validation -/

/-- **C2.** With `dir_depth = 6`, the identifier
`56bb3d0a2a7f294967f02dbc2de2a403ae3ba98b124d840273a6e46e081cf67c` and size
`123`, `file_path` returns the components `5/6/b/b/3/d/…c.3r` below the store
root; in general a successful `file_path` consists of the first `D` lowered
key characters, one directory per character, and the leaf
`K[D:] + "." + size_to_basex S`; `size_to_basex 0 = "0"`; and `size_to_basex`
is a base-32 encoding (it decodes back to its input). -/
theorem C2_path_derivation :
    (file_path 6 "56bb3d0a2a7f294967f02dbc2de2a403ae3ba98b124d840273a6e46e081cf67c" 123 =
      .ok ["5", "6", "b", "b", "3", "d",
        "0a2a7f294967f02dbc2de2a403ae3ba98b124d840273a6e46e081cf67c.3r"]) ∧
    (∀ (D : Nat) (K : String) (S : Int), 0 ≤ S → pyIntHex K.data = true →
      D < K.data.length →
      file_path D K S =
        .ok ((((K.data.map Char.toLower).take D).map fun c => String.mk [c]) ++
          [String.mk ((K.data.map Char.toLower).drop D ++
            ('.' :: size_to_basex S.toNat))])) ∧
    size_to_basex 0 = ['0'] ∧
    (∀ n : Nat, decode32 (size_to_basex n) = n) := by
  refine ⟨by decide, file_path_ok, by decide, decode32_size_to_basex⟩

/-- Witness for C2: the general clause applied to the concrete store depth 1,
key `"ab"` and size `0`. -/
theorem C2_path_derivation_witness :
    file_path 1 "ab" 0 =
      .ok (((("ab".data.map Char.toLower).take 1).map fun c => String.mk [c]) ++
        [String.mk (("ab".data.map Char.toLower).drop 1 ++
          ('.' :: size_to_basex (0 : Int).toNat))]) :=
  C2_path_derivation.2.1 1 "ab" 0 (by decide) (by decide) (by decide)

/-- **C7 counterexample.** `"0x12345"` is not a hex string (it contains `x`),
yet `file_path` accepts it and returns a path instead of raising a value
error, because the validation is `int(path_key, 16)`, which accepts the `0x`
base marker. -/
theorem C7_counterexample :
    file_path 4 "0x12345" 0 = .ok ["0", "x", "1", "2", "345.0"] ∧
      ¬ hexString "0x12345" := by
  exact ⟨by decide, by decide⟩

/-- **C7 (amended).** `file_path` raises a value error exactly for a negative
size or a key rejected by `int(path_key, 16)` (plain hex strings are
accepted, but so are sign/`0x`-prefixed/underscored/whitespace-padded
variants); it raises `InvalidPath` exactly for accepted keys with
`len(K) ≤ D`; and it accepts every hex key longer than `D`, in particular of
length `D + 1`. -/
theorem C7_validation (D : Nat) (K : String) (S : Int) :
    (file_path D K S = .error .valueError ↔ (S < 0 ∨ pyIntHex K.data = false)) ∧
    (file_path D K S = .error .invalidPath ↔
      (0 ≤ S ∧ pyIntHex K.data = true ∧ K.length ≤ D)) ∧
    (hexString K → D < K.length → 0 ≤ S →
      ∃ comps, file_path D K S = .ok comps) := by
  refine ⟨file_path_valueError_iff D K S, file_path_invalidPath_iff D K S, ?_⟩
  intro hhex hD hS
  refine ⟨_, file_path_ok D K S hS (pyIntHex_of_hex K.data hhex.1 hhex.2) hD⟩

/-- Witness for C7: the amended characterization applied at depth 2, key
`"abc"` (hex, length `D + 1`) and size 5. -/
theorem C7_validation_witness :
    ∃ comps, file_path 2 "abc" 5 = .ok comps :=
  (C7_validation 2 "abc" 5).2.2 (by decide) (by decide) (by decide)

/-! ## Lower-casing the key (claim C10) -/

theorem charLe_iff {a b : Char} : a ≤ b ↔ a.toNat ≤ b.toNat := Iff.rfl

/-- `Char.toLower`, with its `let` substituted. -/
theorem toLower_eq (c : Char) :
    Char.toLower c =
      if c.toNat ≥ 65 ∧ c.toNat ≤ 90 then Char.ofNat (c.toNat + 32) else c := rfl

theorem toNat_ofNat_valid {n : Nat} (h : n < 55296) : (Char.ofNat n).toNat = n := by
  have hv : n.isValidChar := Or.inl h
  rw [Char.ofNat, dif_pos hv]
  rfl

/-- The three value ranges a hex digit can fall into. -/
theorem hexDigit_cases (c : Char) (h : hexDigitB c = true) :
    (48 ≤ c.toNat ∧ c.toNat ≤ 57) ∨ (97 ≤ c.toNat ∧ c.toNat ≤ 102) ∨
      (65 ≤ c.toNat ∧ c.toNat ≤ 70) := by
  rw [hexDigitB] at h
  repeat rw [Bool.or_eq_true] at h
  simp only [Bool.and_eq_true, decide_eq_true_eq, charLe_iff] at h
  rcases h with (h | h) | h
  · exact Or.inl h
  · exact Or.inr (Or.inl h)
  · exact Or.inr (Or.inr h)

/-- Lower-casing a hex digit yields a digit or a lower-case `a`–`f`, stays a
hex digit, and is idempotent. -/
theorem toLower_of_hex (c : Char) (h : hexDigitB c = true) :
    ((48 ≤ (Char.toLower c).toNat ∧ (Char.toLower c).toNat ≤ 57) ∨
      (97 ≤ (Char.toLower c).toNat ∧ (Char.toLower c).toNat ≤ 102)) ∧
    hexDigitB (Char.toLower c) = true ∧
    Char.toLower (Char.toLower c) = Char.toLower c := by
  rcases hexDigit_cases c h with hr | hr | hr
  · have hc : Char.toLower c = c := by
      rw [toLower_eq, if_neg (by omega)]
    rw [hc]
    exact ⟨Or.inl hr, h, by rw [toLower_eq, if_neg (by omega)]⟩
  · have hc : Char.toLower c = c := by
      rw [toLower_eq, if_neg (by omega)]
    rw [hc]
    exact ⟨Or.inr hr, h, by rw [toLower_eq, if_neg (by omega)]⟩
  · have hc : Char.toLower c = Char.ofNat (c.toNat + 32) := by
      rw [toLower_eq, if_pos (by omega)]
    have hn : (Char.toLower c).toNat = c.toNat + 32 := by
      rw [hc, toNat_ofNat_valid (by omega)]
    refine ⟨Or.inr (by omega), ?_, ?_⟩
    · rw [hexDigitB]
      repeat rw [Bool.or_eq_true]
      simp only [Bool.and_eq_true, decide_eq_true_eq, charLe_iff]
      refine Or.inl (Or.inr ⟨?_, ?_⟩) <;>
        (have ha : ('a' : Char).toNat = 97 := rfl
         have hf : ('f' : Char).toNat = 102 := rfl
         omega)
    · rw [toLower_eq (Char.toLower c), if_neg (by omega)]

/-- All characters of the lowered key are hex digits. -/
theorem lowered_all_hex (l : List Char) (h : l.all hexDigitB = true) :
    (l.map Char.toLower).all hexDigitB = true := by
  rw [List.all_eq_true] at h ⊢
  intro c hc
  rcases List.mem_map.mp hc with ⟨a, ha, rfl⟩
  exact (toLower_of_hex a (h a ha)).2.1

/-- Lower-casing the key is idempotent characterwise. -/
theorem lowered_idem (l : List Char) (h : l.all hexDigitB = true) :
    (l.map Char.toLower).map Char.toLower = l.map Char.toLower := by
  rw [List.map_map]
  refine List.map_congr_left ?_
  intro a ha
  exact (toLower_of_hex a ((List.all_eq_true.mp h) a ha)).2.2

/-- **C10.** `file_path` is case-insensitive in the identifier: for a hex key
`K` longer than the depth and a non-negative size, `file_path` on `K` and on
the lower-cased `K` agree, and every identifier-derived character (the
characters of the lowered key, which populate the directory components and
the leaf name prefix) is a digit or a lower-case `a`–`f`. -/
theorem C10_case_insensitive (D : Nat) (K : String) (S : Int)
    (hhex : hexString K) (hlen : D < K.length) (hS : 0 ≤ S) :
    file_path D K S = file_path D (String.mk (K.data.map Char.toLower)) S ∧
    ∀ c ∈ K.data.map Char.toLower, ('0' ≤ c ∧ c ≤ '9') ∨ ('a' ≤ c ∧ c ≤ 'f') := by
  have hall := hhex.2
  have hne : K.data ≠ [] := hhex.1
  have hlow := lowered_all_hex K.data hall
  have hlne : K.data.map Char.toLower ≠ [] := by
    intro hcon
    exact hne (List.map_eq_nil_iff.mp hcon)
  constructor
  · rw [file_path_ok D K S hS (pyIntHex_of_hex K.data hne hall) hlen,
      file_path_ok D (String.mk (K.data.map Char.toLower)) S hS
        (pyIntHex_of_hex _ hlne hlow) (by simpa using hlen)]
    rw [show (String.mk (K.data.map Char.toLower)).data = K.data.map Char.toLower from rfl]
    rw [lowered_idem K.data hall]
  · intro c hc
    rcases List.mem_map.mp hc with ⟨a, ha, rfl⟩
    have h0 : ('0' : Char).toNat = 48 := rfl
    have h9 : ('9' : Char).toNat = 57 := rfl
    have ha' : ('a' : Char).toNat = 97 := rfl
    have hf : ('f' : Char).toNat = 102 := rfl
    rcases (toLower_of_hex a ((List.all_eq_true.mp hall) a ha)).1 with hr | hr
    · exact Or.inl ⟨charLe_iff.mpr (by omega), charLe_iff.mpr (by omega)⟩
    · exact Or.inr ⟨charLe_iff.mpr (by omega), charLe_iff.mpr (by omega)⟩

/-- Witness for C10: the concrete key `"AB"` at depth 1 and size 0. -/
theorem C10_case_insensitive_witness :
    file_path 1 "AB" 0 = file_path 1 (String.mk ("AB".data.map Char.toLower)) 0 ∧
    ∀ c ∈ "AB".data.map Char.toLower, ('0' ≤ c ∧ c ≤ '9') ∨ ('a' ≤ c ∧ c ≤ 'f') :=
  C10_case_insensitive 1 "AB" 0 (by decide) (by decide) (by decide)

/-! ## File-system model

The store manipulates a local file system.  We model it as a finite,
duplicate-free association list from absolute paths (lists of components) to
nodes. -/

/-- A path, as its list of components. -/
abbrev FPath := List String

/-- A file-system node: a regular file with its byte content and mode, or a
directory. -/
inductive Node where
  | file (content : List Nat) (mode : Nat)
  | dir
  deriving DecidableEq, Repr

/-- File-system state. -/
abbrev FS := List (FPath × Node)

/-- Look a path up in the file system. -/
def fsGet : FS → FPath → Option Node
  | [], _ => none
  | e :: rest, p => if e.1 = p then some e.2 else fsGet rest p

/-- Remove a path (used for `unlink` and as part of `rename`). -/
def fsDel : FS → FPath → FS
  | [], _ => []
  | e :: rest, p => if e.1 = p then fsDel rest p else e :: fsDel rest p

/-- Create or overwrite a node at a path. -/
def fsSet (fs : FS) (p : FPath) (v : Node) : FS :=
  (p, v) :: fsDel fs p

/-- `Path.exists()`. -/
def existsB (fs : FS) (p : FPath) : Bool := (fsGet fs p).isSome

/-- `Path.is_file()` (conjoined with `exists` this is how `has_file` and
`remove_file` test for a regular file). -/
def isFileB (fs : FS) (p : FPath) : Bool :=
  match fsGet fs p with
  | some (.file _ _) => true
  | _ => false

theorem fsGet_del_self (fs : FS) (p : FPath) : fsGet (fsDel fs p) p = none := by
  induction fs with
  | nil => rfl
  | cons e rest ih =>
    by_cases he : e.1 = p
    · rw [fsDel, if_pos he]
      exact ih
    · rw [fsDel, if_neg he, fsGet, if_neg he]
      exact ih

theorem fsGet_del_ne (fs : FS) (p q : FPath) (h : q ≠ p) :
    fsGet (fsDel fs p) q = fsGet fs q := by
  induction fs with
  | nil => rfl
  | cons e rest ih =>
    by_cases he : e.1 = p
    · have hq : ¬ (e.1 = q) := by
        rw [he]
        exact fun hc => h hc.symm
      rw [fsDel, if_pos he, fsGet, if_neg hq]
      exact ih
    · by_cases hq : e.1 = q
      · rw [fsDel, if_neg he, fsGet, if_pos hq, fsGet, if_pos hq]
      · rw [fsDel, if_neg he, fsGet, if_neg hq, fsGet, if_neg hq]
        exact ih

theorem fsGet_set_self (fs : FS) (p : FPath) (v : Node) :
    fsGet (fsSet fs p v) p = some v := by
  rw [fsSet, fsGet, if_pos rfl]

theorem fsGet_set_ne (fs : FS) (p q : FPath) (v : Node) (h : q ≠ p) :
    fsGet (fsSet fs p v) q = fsGet fs q := by
  rw [fsSet, fsGet, if_neg (fun hc => h hc.symm)]
  exact fsGet_del_ne fs p q h

/-! ## `DirectoryFileStore` state -/

/-- The mutable state and configuration of a `DirectoryFileStore`
(directory.py:17–69).  `free_bytes` models the `disk_usage(...).free`
snapshot that `get_free_bytes` reads; `stored` is `self._stored`. -/
structure DirectoryFileStore where
  fs : FS
  path : FPath
  dir_depth : Nat
  max_files : Int
  min_free_bytes : Nat
  max_file_size : Int
  free_bytes : Nat
  stored : Int

namespace DirectoryFileStore

/-- `self.dir_mode = 740` (directory.py:60) — the decimal literal `740`,
which is `0o1344`, not the documented `0o740`. -/
def dir_mode : Nat := 740

/-- `self.file_mode = 440` (directory.py:61) — the decimal literal `440`,
which is `0o670`, not the documented `0o440`. -/
def file_mode : Nat := 440

/-- `files_stored()` (directory.py:268–273). -/
def files_stored (st : DirectoryFileStore) : Int := st.stored

/-- `get_free_bytes()` (directory.py:260–266). -/
def get_free_bytes (st : DirectoryFileStore) : Nat := st.free_bytes

/-- `can_store(file_size)` (directory.py:275–293).  `file_size` is embedded
as `Int`, so `isinstance(file_size, int)` holds and the malformed
`not isinstance(file_size, int) and int < 0` check short-circuits without
raising. -/
def can_store (st : DirectoryFileStore) (file_size : Int) : Bool :=
  if st.get_free_bytes < st.min_free_bytes then false
  else if st.files_stored ≥ st.max_files then false
  else st.max_file_size ≥ file_size

end DirectoryFileStore

/-- **C8.** `can_store(S)` is true exactly when the free bytes are at least
`min_free_bytes`, the stored-file counter is strictly below `max_files`, and
`S` is at most `max_file_size`. -/
theorem C8_can_store (st : DirectoryFileStore) (S : Int) :
    st.can_store S = true ↔
      (st.min_free_bytes ≤ st.free_bytes ∧ st.stored < st.max_files ∧
        S ≤ st.max_file_size) := by
  unfold DirectoryFileStore.can_store DirectoryFileStore.get_free_bytes
    DirectoryFileStore.files_stored
  by_cases h1 : st.free_bytes < st.min_free_bytes
  · rw [if_pos h1]
    simp only [Bool.false_eq_true, false_iff]
    intro h
    omega
  · rw [if_neg h1]
    by_cases h2 : st.stored ≥ st.max_files
    · rw [if_pos h2]
      simp only [Bool.false_eq_true, false_iff]
      intro h
      omega
    · rw [if_neg h2]
      simp only [ge_iff_le, decide_eq_true_eq]
      omega

/-! ## `SHMBufferSync.wait` (shmem.py lines 147–149) -/

/-- The relevant state of `SHMBufferSync`: its buffer name and configured
`timeout`. -/
structure SHMBufferSync where
  shm_name : String
  timeout : Option Int

/-- `SHMBufferSync.wait(timeout)` (shmem.py:147–149), returning the timeout
value handed to `self.barrier.wait`.  The method computes the local
`timeout = timeout or self.timeout` (Python `or`: `None` and `0` are falsy)
but then calls `self.barrier.wait(timeout=self.timeout)`, so the local value
is dead and the configured timeout is always used. -/
def SHMBufferSync.waitBarrierTimeout (s : SHMBufferSync) (t : Option Int) : Option Int :=
  let _localTimeout : Option Int :=
    match t with
    | some v => if v ≠ 0 then some v else s.timeout
    | none => s.timeout
  s.timeout

/-- **C9.** With configured timeout 7, `wait(2)` passes 7 — not the provided
2 — to the underlying barrier wait: the passed argument does not take
precedence. -/
theorem C9_wait_ignores_argument :
    SHMBufferSync.waitBarrierTimeout ⟨"buf", some 7⟩ (some 2) = some 7 ∧
      (some 7 : Option Int) ≠ some 2 := by
  exact ⟨rfl, by decide⟩

/-! ## `SHMFanoutBuffer` (shmem.py lines 8–120)

The shared block is a byte list; `_sz_width = calcsize("Q") = 8`, and the
payload capacity `_max` is the block length minus the header width. -/

/-- `calcsize("Q")`. -/
def szWidth : Nat := 8

/-- Python slice read `l[a:b]` with non-negative indices and step 1
(indices clamp to the list's length). -/
def pyGetSlice (l : List Nat) (a b : Nat) : List Nat := (l.take b).drop a

/-- Python `memoryview` slice assignment `l[a:b] = v`: the value must have
exactly the length of the addressed slice, otherwise
`ValueError: memoryview assignment: lvalue and rvalue have different
structures` is raised. -/
def pySetSlice (l : List Nat) (a b : Nat) (v : List Nat) : Except PyErr (List Nat) :=
  if (pyGetSlice l a b).length = v.length then
    .ok ((l.take a) ++ v ++ l.drop (a + v.length))
  else .error .valueError

/-- The in-memory state of a `SHMFanoutBuffer`: the whole shared block
(`self._shmem.buf`, header included) and the mirrored attribute
`self._size`. -/
structure SHMFanoutBuffer where
  buf : List Nat
  sizeAttr : Nat

namespace SHMFanoutBuffer

/-- `self._max = self._shmem.size - self._sz_width` (shmem.py:31). -/
def maxB (b : SHMFanoutBuffer) : Nat := b.buf.length - szWidth

/-- Little-endian 8-byte encoding used by `pack_into("Q", buf, 0, n)`
(values `< 2^64`; the callers below only store sizes bounded by the block
length). -/
def leBytes8 (n : Nat) : List Nat :=
  [n % 256, n / 256 % 256, n / 256 ^ 2 % 256, n / 256 ^ 3 % 256,
   n / 256 ^ 4 % 256, n / 256 ^ 5 % 256, n / 256 ^ 6 % 256, n / 256 ^ 7 % 256]

/-- `unpack_from("Q", buf, 0)[0]`. -/
def leDecode8 (l : List Nat) : Nat :=
  ((l.take 8).reverse).foldl (fun acc b => acc * 256 + b) 0

/-- `save_size()` (shmem.py:42–47): packs `self._size` into the first 8
bytes of the block. -/
def save_size (b : SHMFanoutBuffer) : SHMFanoutBuffer :=
  { b with buf := leBytes8 b.sizeAttr ++ b.buf.drop szWidth }

/-- `load_size()` (shmem.py:49–52). -/
def load_size (b : SHMFanoutBuffer) : SHMFanoutBuffer :=
  { b with sizeAttr := leDecode8 b.buf }

/-- `save_bytes(data)` (shmem.py:54–59):
`addlen = min(len(data), self._max)`, then the slice assignment
`self._shmem.buf[self._sz_width:addlen] = data[:addlen]`, then
`self._size = addlen; self.save_size()`, returning `addlen`. -/
def save_bytes (b : SHMFanoutBuffer) (data : List Nat) :
    Except PyErr (SHMFanoutBuffer × Nat) :=
  let addlen := min data.length b.maxB
  match pySetSlice b.buf szWidth addlen (data.take addlen) with
  | .error e => .error e
  | .ok buf1 => .ok ((save_size { buf := buf1, sizeAttr := addlen }), addlen)

/-- `snapshot()` (shmem.py:65–70): the read-only view
`self._shmem.buf[self._sz_width:self._size]`. -/
def snapshot (b : SHMFanoutBuffer) : List Nat := pyGetSlice b.buf szWidth b.sizeAttr

/-- `load_bytes()` (shmem.py:61–63): `self.load_size()` then
`self.snapshot()`. -/
def load_bytes (b : SHMFanoutBuffer) : SHMFanoutBuffer × List Nat :=
  let b1 := b.load_size
  (b1, b1.snapshot)

end SHMFanoutBuffer

/-- **C4.** `save_bytes` never copies a nonempty chunk: for every buffer
with positive capacity and every nonempty `data`, the slice assignment
`buf[8:addlen] = data[:addlen]` addresses `max(addlen − 8, 0)` bytes but
supplies `addlen` bytes, so it raises `ValueError` instead of copying
`min(len(data), capacity)` bytes at the payload origin. -/
theorem C4_save_bytes_raises (b : SHMFanoutBuffer) (data : List Nat)
    (hne : data ≠ []) (hcap : 0 < b.maxB) :
    b.save_bytes data = .error .valueError := by
  have hdata : 0 < data.length := List.length_pos.mpr hne
  have haddpos : 0 < min data.length b.maxB := by omega
  have haddle : min data.length b.maxB ≤ b.buf.length := by
    have : b.maxB ≤ b.buf.length := Nat.sub_le _ _
    omega
  have hlen : ¬ ((pyGetSlice b.buf szWidth (min data.length b.maxB)).length =
      (data.take (min data.length b.maxB)).length) := by
    rw [pyGetSlice, szWidth, List.length_drop, List.length_take, List.length_take]
    omega
  rw [SHMFanoutBuffer.save_bytes]
  simp only [pySetSlice, if_neg hlen]

/-- Witness for C4: an 8-byte-capacity buffer and a single data byte. -/
theorem C4_save_bytes_raises_witness :
    SHMFanoutBuffer.save_bytes ⟨List.replicate 16 0, 0⟩ [42] = .error .valueError :=
  C4_save_bytes_raises ⟨List.replicate 16 0, 0⟩ [42] (by decide) (by decide)

/-- **C5.** With the length header holding 4 and payload bytes `9,9,9,9,5,5`,
`load_bytes` (which loads the header and then calls `snapshot`) returns the
empty view `buf[8:4]` — not the first 4 payload bytes `9,9,9,9` the claim
describes. -/
theorem C5_snapshot_truncates :
    (SHMFanoutBuffer.load_bytes ⟨[4, 0, 0, 0, 0, 0, 0, 0, 9, 9, 9, 9, 5, 5], 0⟩).2 = [] ∧
    (((⟨[4, 0, 0, 0, 0, 0, 0, 0, 9, 9, 9, 9, 5, 5], 0⟩ : SHMFanoutBuffer).buf.drop
        szWidth).take
      (SHMFanoutBuffer.leDecode8 [4, 0, 0, 0, 0, 0, 0, 0, 9, 9, 9, 9, 5, 5]) = [9, 9, 9, 9]) ∧
    ([] : List Nat) ≠ [9, 9, 9, 9] := by
  exact ⟨rfl, by decide, by decide⟩

/-! ## Store operations (directory.py lines 71–250) -/

namespace DirectoryFileStore

/-- `DirectoryFileStore.hexchars` (directory.py:29): the list of the sixteen
lower-case hex characters `0`–`9`, `a`–`f`, in order. -/
def hexchars : List Char := "0123456789abcdef".data

/-- `enum_sub_dirs(base_dir, depth, max_depth)` (directory.py:128–157): when
`depth > max_depth` yield the base directory, else recurse into
`base / hd` for each hex character, one level deeper. -/
def enum_sub_dirs (base : FPath) (depth max_depth : Nat) : List FPath :=
  if _h : depth > max_depth then [base]
  else
    hexchars.foldr
      (fun hd acc => enum_sub_dirs (base ++ [String.mk [hd]]) (depth + 1) max_depth ++ acc) []
termination_by max_depth + 1 - depth
decreasing_by simp_wf; omega

/-- The loop body of `create_dirs` (directory.py:165–171): walk the
enumerated leaf directories; an existing directory is skipped, while the
first missing one hits `fdir.mkdir(modr=self.dir_mode, ...)` — `modr` is a
misspelled keyword, so `mkdir` raises
`TypeError: mkdir() got an unexpected keyword argument 'modr'`. -/
def create_dirs_loop (fs : FS) : List FPath → Except PyErr Nat
  | [] => .ok 0
  | d :: rest => if (fsGet fs d).isSome then create_dirs_loop fs rest else .error .typeError

/-- A call of the bound method `self.create_dirs(...)` with the given
positional arguments.  `def create_dirs(self) -> int:` (directory.py:159)
declares no parameter besides `self`, so any positional argument raises
`TypeError: create_dirs() takes 1 positional argument but 2 were given`
before the body runs. -/
def create_dirs_call (st : DirectoryFileStore) (args : List FPath) : Except PyErr Nat :=
  match args with
  | [] => create_dirs_loop st.fs (enum_sub_dirs st.path 1 st.dir_depth)
  | _ :: _ => .error .typeError

/-- Does the path's last component match the glob `*.lock`? -/
def matchesLockB (p : FPath) : Bool :=
  match p.getLast? with
  | some s => s.endsWith ".lock"
  | none => false

/-- The direct children of a directory, as `d.glob('*')` lists them. -/
def childPaths (fs : FS) (d : FPath) : List FPath :=
  (fs.filter (fun e => e.1.length = d.length + 1 && e.1.dropLast = d)).map (fun e => e.1)

/-- `count_stored()` (directory.py:189–198): over all leaf directories, count
the entries whose name does not match `*.lock`. -/
def count_stored (st : DirectoryFileStore) : Nat :=
  (enum_sub_dirs st.path 1 st.dir_depth).foldl
    (fun acc d => acc + ((childPaths st.fs d).filter (fun p => ¬ matchesLockB p = true)).length)
    0

/-- `init_store()` (directory.py:118–126): `dcount = self.create_dirs(self.path)`
— which raises `TypeError` (see `create_dirs_call`) — then would seed
`self._stored = self.count_stored()` and return the pair. -/
def init_store (st : DirectoryFileStore) : Except PyErr (DirectoryFileStore × Nat × Nat) :=
  match create_dirs_call st [st.path] with
  | .error e => .error e
  | .ok dcount =>
    let c := count_stored st
    .ok ({ st with stored := Int.ofNat c }, dcount, c)

/-- Advisory-lock acquisition as the `filelock` package's Unix `FileLock`
implements it: `os.open(lock_path, O_RDWR | O_CREAT | O_TRUNC, 0o644)`
followed by `flock`.  Opening truncates an existing regular file, creates a
missing one with mode `0o644` (= 420), raises `FileNotFoundError` when the
parent directory is missing and `IsADirectoryError` on a directory.
Releasing the lock closes the descriptor but never removes the lock file. -/
def lockAcquire (fs : FS) (p : FPath) : Except PyErr FS :=
  match fsGet fs p with
  | some (.file _ m) => .ok (fsSet fs p (.file [] m))
  | some .dir => .error .isADirectoryError
  | none =>
    if fsGet fs p.dropLast = some .dir then .ok (fsSet fs p (.file [] 420))
    else .error .fileNotFoundError

/-- The absolute destination `self.file_path(path_key, file_size)` of the
store, when the key and size are valid. -/
def storeDst (st : DirectoryFileStore) (K : String) (S : Int) : Option FPath :=
  (file_path st.dir_depth K S).toOption.map (fun comps => st.path ++ comps)

/-- `has_file(path_key, file_size)` (directory.py:71–82):
`fpath.exists() and fpath.is_file()`. -/
def has_file (st : DirectoryFileStore) (K : String) (S : Int) : Except PyErr Bool :=
  match file_path st.dir_depth K S with
  | .error e => .error e
  | .ok comps =>
    let fpath := st.path ++ comps
    .ok (existsB st.fs fpath && isFileB st.fs fpath)

/-- `add_file(source_path, path_key, file_size)` (directory.py:200–232).
The lock is `FileLock(dst)` — the destination path itself, unlike
`remove_file`'s `FileLock(f"{fpath}.lock")` — so acquiring it creates (or
truncates!) the destination.  Under the lock: if the destination does not
exist, check the parent, `src.rename(dst)`, `dst.chmod(mode=440)` and
increment `_stored`; otherwise `src.unlink()`.  Returns `dst.exists()`,
evaluated after the lock is released (release keeps the lock file). -/
def add_file (st : DirectoryFileStore) (source_path : FPath) (K : String) (S : Int) :
    Except PyErr (DirectoryFileStore × Bool) :=
  if ¬ isFileB st.fs source_path then .error .invalidFileError
  else
    match file_path st.dir_depth K S with
    | .error e => .error e
    | .ok comps =>
      let dst := st.path ++ comps
      match lockAcquire st.fs dst with
      | .error e => .error e
      | .ok fs1 =>
        if ¬ existsB fs1 dst then
          if ¬ (fsGet fs1 dst.dropLast = some .dir) then .error .invalidDirectoryError
          else
            match fsGet fs1 source_path with
            | some (.file c _) =>
              let fs2 := fsSet (fsDel fs1 source_path) dst (.file c file_mode)
              .ok ({ st with fs := fs2, stored := st.stored + 1 }, existsB fs2 dst)
            | _ => .error .fileNotFoundError
        else
          match fsGet fs1 source_path with
          | some (.file _ _) =>
            let fs2 := fsDel fs1 source_path
            .ok ({ st with fs := fs2 }, existsB fs2 dst)
          | some .dir => .error .isADirectoryError
          | none => .error .fileNotFoundError

end DirectoryFileStore

/-! ## Claim theorems: store operations -/

/-- **C6.** `init_store()` never creates the directory tree or returns the
`(dirs_created, files_found)` pair: its very first statement
`self.create_dirs(self.path)` passes a positional argument to
`create_dirs(self)`, which raises `TypeError`.  (Additionally, the mode the
code would use is the decimal literal `740`, not `0o740`.) -/
theorem C6_init_store_raises :
    (∀ st : DirectoryFileStore, st.init_store = .error .typeError) ∧
      DirectoryFileStore.dir_mode ≠ 0o740 := by
  exact ⟨fun _ => rfl, by decide⟩

/-- A store whose root `r` and leaf directory `r/a` exist, plus a source
file `tmp/s`; destination `r/a/b.0` is absent. -/
def sampleStore : DirectoryFileStore :=
  { fs := [(["r"], .dir), (["r", "a"], .dir), (["tmp", "s"], .file [7, 7] 384)],
    path := ["r"], dir_depth := 1, max_files := 10, min_free_bytes := 0,
    max_file_size := 100, free_bytes := 1000, stored := 0 }

/-- **C1.** On a fresh destination with an existing parent and a regular
source, `add_file` returns `True` but does **not** rename the source onto
the destination, does not set mode `0o440`, and does not increment the
counter: acquiring `FileLock(dst)` creates the destination itself, so the
code takes the duplicate branch, unlinks the source, and leaves an empty
mode-`0o644` lock file at the destination with `files_stored()` unchanged.
(`file_mode` is also the decimal literal `440`, not `0o440`.) -/
theorem C1_add_file_diverges :
    ((sampleStore.add_file ["tmp", "s"] "ab" 0).toOption.map
        (fun r => (r.2, r.1.stored, fsGet r.1.fs ["r", "a", "b.0"], fsGet r.1.fs ["tmp", "s"])))
      = some (true, (0 : Int), some (.file [] 420), none) ∧
    DirectoryFileStore.file_mode ≠ 0o440 := by
  exact ⟨by decide, by decide⟩

/-- **C3.** Dedup round-trip: after `add_file(src, K, S)` the store reports
`has_file(K, S)`; a second `add_file` with the same `(K, S)` and another
existing source returns `True`, leaves `files_stored()` unchanged, and
unlinks that second source.  (Both calls run the duplicate branch because
the lock acquisition itself creates the destination path.) -/
theorem C3_dedup (st : DirectoryFileStore) (src src2 dst : FPath) (K : String) (S : Int)
    (hdst : st.storeDst K S = some dst)
    (hfresh : fsGet st.fs dst = none)
    (hpar : fsGet st.fs dst.dropLast = some .dir)
    (hsrc : ∃ c m, fsGet st.fs src = some (.file c m))
    (hsd : src ≠ dst)
    (hsrc2 : ∃ c m, fsGet st.fs src2 = some (.file c m))
    (hs2d : src2 ≠ dst) (hs2s : src2 ≠ src) :
    ∃ st1 st2,
      st.add_file src K S = .ok (st1, true) ∧
      st1.has_file K S = .ok true ∧
      st1.add_file src2 K S = .ok (st2, true) ∧
      st2.files_stored = st1.files_stored ∧
      fsGet st2.fs src2 = none := by
  obtain ⟨c, m, hsrcEq⟩ := hsrc
  obtain ⟨c2, m2, hsrc2Eq⟩ := hsrc2
  rw [DirectoryFileStore.storeDst] at hdst
  cases hfp : file_path st.dir_depth K S with
  | error e =>
    rw [hfp] at hdst
    simp [Except.toOption] at hdst
  | ok comps =>
    rw [hfp] at hdst
    simp only [Except.toOption, Option.map] at hdst
    have hdst' : st.path ++ comps = dst := by
      exact Option.some.inj hdst
    have hsrcFile : isFileB st.fs src = true := by
      unfold isFileB
      rw [hsrcEq]
    have hAcq : DirectoryFileStore.lockAcquire st.fs dst =
        .ok (fsSet st.fs dst (.file [] 420)) := by
      unfold DirectoryFileStore.lockAcquire
      rw [hfresh]
      show (if fsGet st.fs dst.dropLast = some Node.dir then
          (.ok (fsSet st.fs dst (.file [] 420)) : Except PyErr FS)
        else .error .fileNotFoundError) = .ok (fsSet st.fs dst (.file [] 420))
      rw [if_pos hpar]
    have hEx1 : existsB (fsSet st.fs dst (.file [] 420)) dst = true := by
      unfold existsB
      rw [fsGet_set_self]
      rfl
    have hg1 : fsGet (fsSet st.fs dst (.file [] 420)) src = some (.file c m) := by
      rw [fsGet_set_ne _ _ _ _ hsd]
      exact hsrcEq
    have hg2 : fsGet (fsDel (fsSet st.fs dst (.file [] 420)) src) dst =
        some (.file [] 420) := by
      rw [fsGet_del_ne _ _ _ (fun hc => hsd hc.symm), fsGet_set_self]
    have hEx2 : existsB (fsDel (fsSet st.fs dst (.file [] 420)) src) dst = true := by
      unfold existsB
      rw [hg2]
      rfl
    have hE1 : st.add_file src K S =
        .ok ({ st with fs := fsDel (fsSet st.fs dst (.file [] 420)) src }, true) := by
      simp [DirectoryFileStore.add_file, hsrcFile, hfp, hdst', hAcq, hEx1, hg1, hEx2]
    have hE2 : DirectoryFileStore.has_file
        { st with fs := fsDel (fsSet st.fs dst (.file [] 420)) src } K S = .ok true := by
      simp [DirectoryFileStore.has_file, hfp, hdst', existsB, isFileB, hg2]
    have hsrc2File :
        isFileB (fsDel (fsSet st.fs dst (.file [] 420)) src) src2 = true := by
      unfold isFileB
      rw [fsGet_del_ne _ _ _ hs2s, fsGet_set_ne _ _ _ _ hs2d, hsrc2Eq]
    have hAcq2 : DirectoryFileStore.lockAcquire
        (fsDel (fsSet st.fs dst (.file [] 420)) src) dst =
        .ok (fsSet (fsDel (fsSet st.fs dst (.file [] 420)) src) dst (.file [] 420)) := by
      unfold DirectoryFileStore.lockAcquire
      rw [hg2]
    have hEx3 : existsB
        (fsSet (fsDel (fsSet st.fs dst (.file [] 420)) src) dst (.file [] 420)) dst = true := by
      unfold existsB
      rw [fsGet_set_self]
      rfl
    have hg3 : fsGet
        (fsSet (fsDel (fsSet st.fs dst (.file [] 420)) src) dst (.file [] 420)) src2 =
        some (.file c2 m2) := by
      rw [fsGet_set_ne _ _ _ _ hs2d, fsGet_del_ne _ _ _ hs2s, fsGet_set_ne _ _ _ _ hs2d]
      exact hsrc2Eq
    have hEx4 : existsB
        (fsDel (fsSet (fsDel (fsSet st.fs dst (.file [] 420)) src) dst (.file [] 420)) src2)
        dst = true := by
      unfold existsB
      rw [fsGet_del_ne _ _ _ (fun hc => hs2d hc.symm), fsGet_set_self]
      rfl
    have hE3 : DirectoryFileStore.add_file
        { st with fs := fsDel (fsSet st.fs dst (.file [] 420)) src } src2 K S =
        .ok ({ st with fs := fsDel (fsSet (fsDel (fsSet st.fs dst (.file [] 420)) src) dst (.file [] 420)) src2 }, true) := by
      simp [DirectoryFileStore.add_file, hsrc2File, hfp, hdst', hAcq2, hEx3, hg3, hEx4]
    exact ⟨_, _, hE1, hE2, hE3, rfl, fsGet_del_self _ _⟩

/-- A store with two pending source files `t1`, `t2` for the witness. -/
def dedupStore : DirectoryFileStore :=
  { fs := [(["r"], .dir), (["r", "a"], .dir), (["t1"], .file [1] 384), (["t2"], .file [2] 384)],
    path := ["r"], dir_depth := 1, max_files := 10, min_free_bytes := 0,
    max_file_size := 100, free_bytes := 1000, stored := 0 }

/-- Witness for C3: the dedup round-trip on a concrete store. -/
theorem C3_dedup_witness :
    ∃ st1 st2,
      dedupStore.add_file ["t1"] "ab" 0 = .ok (st1, true) ∧
      DirectoryFileStore.has_file st1 "ab" 0 = .ok true ∧
      DirectoryFileStore.add_file st1 ["t2"] "ab" 0 = .ok (st2, true) ∧
      DirectoryFileStore.files_stored st2 = DirectoryFileStore.files_stored st1 ∧
      fsGet st2.fs ["t2"] = none :=
  C3_dedup dedupStore ["t1"] ["t2"] ["r", "a", "b.0"] "ab" 0 (by decide) (by decide)
    (by decide) ⟨[1], 384, by decide⟩ (by decide) ⟨[2], 384, by decide⟩ (by decide) (by decide)

end Garnerd
